import Mathlib

/-!
Verification of the manual-entry-to-15-minute-intervals normalization core of
the intelliwatt repository, as implemented in
`src/docs/SMT/# Manual Entry to 15-Minute Intervals No.py`
(functions `monthly_to_intervals`, `annual_to_intervals`, `_get_billing_period`,
`_split_to_15min_flat`, `_is_in_travel_range`).

Modelling conventions:
- Python `datetime` instants are embedded as natural numbers of seconds on a
  proleptic-Gregorian "rata die" axis (`rataDie y m d * 86400 + time-of-day`).
  This is order- and difference-isomorphic to naive `datetime` values, and the
  ISO-8601 string keys used by the Python dict sort exactly like these numbers
  for the years exercised here.
- Python `date` values (used by the travel-exclusion filter) are embedded as
  rata-die day numbers; a travel range is a pair of day numbers, corresponding
  to the `(start_date, end_date)` tuples produced by `_parse_travel_dates`.
- Python floats are embedded as exact rationals (ℚ).  `round` is embedded as
  exact round-half-to-even (`pyRound`); none of the quantities the claims
  exercise fall on a rounding tie, so the float/rational gap is immaterial at
  the stated 1e-6 tolerances.
- Python dicts are embedded as association lists with the dict's
  update-in-place / append-if-new semantics (`dictSet`), preserving insertion
  order exactly as CPython does.
-/

/-- Leap-year test, as used by Python's `calendar.monthrange`. -/
def isLeap (y : Nat) : Bool := y % 4 == 0 && (y % 100 != 0 || y % 400 == 0)

/-- Number of days of month `m` of year `y`; the second component of Python's
`calendar.monthrange(y, m)`.  (Python raises for `m` outside 1..12; every call
site modelled here passes a month in 1..12.) -/
def daysInMonth (y m : Nat) : Nat :=
  if m = 2 then (if isLeap y then 29 else 28)
  else if m = 4 ∨ m = 6 ∨ m = 9 ∨ m = 11 then 30
  else 31

/-- Number of leap years in `[1, y-1]`. -/
def leapsBefore (y : Nat) : Nat := (y - 1) / 4 - (y - 1) / 100 + (y - 1) / 400

/-- Days of year `y` that lie in months strictly before `m`. -/
def daysBeforeMonth (y m : Nat) : Nat :=
  (List.range (m - 1)).foldl (fun a i => a + daysInMonth y (i + 1)) 0

/-- Day number of the calendar date `y-m-d` on a linear day axis (0-based
proleptic-Gregorian rata die), mirroring Python's `date` ordering and
subtraction. -/
def rataDie (y m d : Nat) : Nat :=
  365 * (y - 1) + leapsBefore y + daysBeforeMonth y m + (d - 1)

/-- Naive `datetime` value, component by component (no timezone, microseconds
always zero in the modelled code). -/
structure DT where
  year : Nat
  month : Nat
  day : Nat
  hour : Nat
  minute : Nat
  second : Nat
deriving DecidableEq, Repr

/-- Seconds-since-epoch linearization of a naive datetime; mirrors `datetime`
ordering and `timedelta.total_seconds` differences. -/
def dtSec (t : DT) : Nat :=
  rataDie t.year t.month t.day * 86400 + t.hour * 3600 + t.minute * 60 + t.second

/-- Python's built-in `round` to an integer: round half to even. -/
def pyRound (q : ℚ) : ℤ :=
  let f := ⌊q⌋
  let r := q - (f : ℚ)
  if r < 1 / 2 then f
  else if 1 / 2 < r then f + 1
  else if f % 2 = 0 then f else f + 1

/-- Python's `round(x, 4)`: round to four decimal places (half to even). -/
def roundTo4 (q : ℚ) : ℚ := (pyRound (q * 10000) : ℚ) / 10000

/-- Value of a decimal digit character, `none` for non-digits. -/
def digitVal? (c : Char) : Option Nat :=
  if c = '0' then some 0 else if c = '1' then some 1
  else if c = '2' then some 2 else if c = '3' then some 3
  else if c = '4' then some 4 else if c = '5' then some 5
  else if c = '6' then some 6 else if c = '7' then some 7
  else if c = '8' then some 8 else if c = '9' then some 9
  else none

/-- Split a character list at every dash, like `"a-b-c".split('-')`. -/
def splitDash : List Char → List (List Char)
  | [] => [[]]
  | c :: rest =>
    if c = '-' then [] :: splitDash rest
    else
      match splitDash rest with
      | [] => [[c]]
      | g :: gs => (c :: g) :: gs

/-- Parse a nonempty all-digit character list as a natural number. -/
def digitsToNat? (cs : List Char) : Option Nat :=
  match cs with
  | [] => none
  | _ =>
    cs.foldl
      (fun acc c =>
        match acc, digitVal? c with
        | some n, some d => some (n * 10 + d)
        | _, _ => none)
      (some 0)

/-- Models Python's `datetime.strptime(s, '%Y-%m-%d')` as used by
`annual_to_intervals` and `_parse_travel_dates`: three dash-separated decimal
fields forming a valid calendar date parse to `(year, month, day)`; anything
else fails (`ValueError` in Python, `none` here). -/
def parseDate (s : String) : Option (Nat × Nat × Nat) :=
  match splitDash s.toList with
  | [ys, ms, ds] =>
    match digitsToNat? ys, digitsToNat? ms, digitsToNat? ds with
    | some y, some m, some d =>
      if 1 ≤ y ∧ y ≤ 9999 ∧ 1 ≤ m ∧ m ≤ 12 ∧ 1 ≤ d ∧ d ≤ daysInMonth y m then
        some (y, m, d)
      else none
    | _, _, _ => none
  | _ => none

/-- Models `_is_in_travel_range(date, travel_ranges)`: the day is excluded iff
it lies in the inclusive span of any range. -/
def is_in_travel_range (day : Nat) (travel : List (Nat × Nat)) : Bool :=
  travel.any (fun r => decide (r.1 ≤ day) && decide (day ≤ r.2))

/-- First value stored under key `k`, if any (`dict.get(k)`). -/
def dictFind? (d : List (Nat × ℚ)) (k : Nat) : Option ℚ :=
  (d.find? (fun kv => kv.1 == k)).map Prod.snd

/-- Python's `dict.get(k, 0)`. -/
def dictGet (d : List (Nat × ℚ)) (k : Nat) : ℚ := (dictFind? d k).getD 0

/-- Python's `d[k] = v`: replace in place if the key is present (CPython keeps
the key's position), append otherwise. -/
def dictSet : List (Nat × ℚ) → Nat → ℚ → List (Nat × ℚ)
  | [], k, v => [(k, v)]
  | kv :: rest, k, v => if kv.1 = k then (k, v) :: rest else kv :: dictSet rest k v

/-- The merge loop `for ts_key, kwh in month_intervals.items():
all_intervals[ts_key] = all_intervals.get(ts_key, 0) + kwh`. -/
def mergeInto (acc l : List (Nat × ℚ)) : List (Nat × ℚ) :=
  l.foldl (fun a kv => dictSet a kv.1 (dictGet a kv.1 + kv.2)) acc

/-- Sum of all values stored under key `k` (coincides with `dictGet` when the
keys of `l` are distinct). -/
def sumV (l : List (Nat × ℚ)) (k : Nat) : ℚ :=
  ((l.filter (fun kv => kv.1 == k)).map Prod.snd).sum

/-- Candidate bucket timestamps of `_split_to_15min_flat`: start rounded down
to a 15-minute boundary, stepping by 900 seconds while `current <= end_dt`. -/
def bucketCandidates (startSec endSec : Nat) : List Nat :=
  let c0 := startSec / 900 * 900
  if c0 ≤ endSec then
    (List.range ((endSec - c0) / 900 + 1)).map (fun i => c0 + 900 * i)
  else []

/-- Models `_split_to_15min_flat(start_dt, end_dt, total_kwh, travel_ranges,
home_details)`.  `home_details` is numerically unused in the source and is
omitted.  Returns the ordered bucket map timestamp → kWh. -/
def split_to_15min_flat (startSec endSec : Nat) (totalKwh : ℚ)
    (travel : List (Nat × Nat)) : List (Nat × ℚ) :=
  let totalSeconds : ℚ := (endSec : ℚ) - (startSec : ℚ)
  let totalMinutes : ℚ := totalSeconds / 60
  let numIntervals : ℤ := pyRound (totalMinutes / 15)
  if numIntervals ≤ 0 then []
  else
    let perInterval : ℚ := totalKwh / (numIntervals : ℚ)
    let kept := (bucketCandidates startSec endSec).filter
      (fun t => !(is_in_travel_range (t / 86400) travel))
    if (kept.length : ℤ) < numIntervals then
      if 0 < kept.length then
        kept.map (fun t => (t, totalKwh / (kept.length : ℚ)))
      else []
    else kept.map (fun t => (t, perInterval))

/-- Insert a bucket into a key-sorted list, keeping ascending key order. -/
def insertByKey (kv : Nat × ℚ) : List (Nat × ℚ) → List (Nat × ℚ)
  | [] => [kv]
  | h :: t => if kv.1 ≤ h.1 then kv :: h :: t else h :: insertByKey kv t

/-- Models Python's `sorted(d.items())` for a dict with distinct numeric keys:
the unique permutation ascending in the key. -/
def sortByKey (l : List (Nat × ℚ)) : List (Nat × ℚ) := l.foldr insertByKey []

/-- One output record: `{timestamp, consumption, interval_minutes: 15,
unit: 'kWh'}` (the constant fields and the `home_id` plumbing are omitted). -/
structure IntervalRec where
  timestamp : Nat
  consumption : ℚ
deriving DecidableEq, Repr

/-- The shared output stage of both aggregators: sort the bucket dict by
timestamp, drop non-positive buckets, round the survivors to 4 decimals. -/
def toOutput (d : List (Nat × ℚ)) : List IntervalRec :=
  (sortByKey d).filterMap
    (fun kv => if 0 < kv.2 then some ⟨kv.1, roundTo4 kv.2⟩ else none)

/-- Models `_get_billing_period(year, month, bill_end_day)`. -/
def get_billing_period (year month billEndDay : Nat) : DT × DT :=
  let lastDay := daysInMonth year month
  let be := min billEndDay lastDay
  let endDT : DT := ⟨year, month, be, 23, 59, 59⟩
  let prev : Nat × Nat := if month = 1 then (year - 1, 12) else (year, month - 1)
  let prevLast := daysInMonth prev.1 prev.2
  let bs := min (be + 1) prevLast
  (⟨prev.1, prev.2, bs, 0, 0, 0⟩, endDT)

/-- Period selection inside `monthly_to_intervals`: billing period when a
bill-end day in 1..31 is supplied (0 is falsy in Python and also fails the
range test), otherwise the full calendar month. -/
def monthlyPeriod (year month : Nat) (billEndDay : Option Nat) : DT × DT :=
  match billEndDay with
  | some c =>
    if 1 ≤ c ∧ c ≤ 31 then get_billing_period year month c
    else (⟨year, month, 1, 0, 0, 0⟩, ⟨year, month, daysInMonth year month, 23, 59, 59⟩)
  | none => (⟨year, month, 1, 0, 0, 0⟩, ⟨year, month, daysInMonth year month, 23, 59, 59⟩)

/-- Bucket map contributed by one month of the monthly batch. -/
def entrySplit (year : Nat) (billEndDay : Option Nat) (travel : List (Nat × Nat))
    (month : Nat) (total : ℚ) : List (Nat × ℚ) :=
  let p := monthlyPeriod year month billEndDay
  split_to_15min_flat (dtSec p.1) (dtSec p.2) total travel

/-- The `all_intervals` accumulation loop of `monthly_to_intervals`. -/
def monthlyAllIntervals (mdict : List (Nat × ℚ)) (year : Nat)
    (billEndDay : Option Nat) (travel : List (Nat × Nat)) : List (Nat × ℚ) :=
  mdict.foldl (fun acc kv => mergeInto acc (entrySplit year billEndDay travel kv.1 kv.2)) []

/-- One input row of the monthly batch, after the `int(...)`/`float(...)`
coercions of the source (`month`, `total`, optional `year`). -/
structure Row where
  month : Nat
  total : ℚ
  year : Option Nat
deriving DecidableEq, Repr

/-- One step of the grouping loop of `monthly_to_intervals`: a row with month
in 1..12 writes its total into `monthly_dict` (overwriting any earlier row of
the same month) and supplies `year` if none has been seen yet; any other row
is skipped. -/
def buildStep (acc : List (Nat × ℚ) × Option Nat) (r : Row) : List (Nat × ℚ) × Option Nat :=
  if 1 ≤ r.month ∧ r.month ≤ 12 then
    (dictSet acc.1 r.month r.total,
     match acc.2 with
     | none => r.year
     | some y => some y)
  else acc

/-- The grouping loop of `monthly_to_intervals`: build `monthly_dict` (last
write wins per month) and pick `year` from the first valid row that carries
one. -/
def build_monthly (rows : List Row) : List (Nat × ℚ) × Option Nat :=
  rows.foldl buildStep ([], none)

/-- Models `monthly_to_intervals(monthly_rows, bill_end_day, ...)`.  The
`datetime.now().year` fallback is passed in as `nowYear` so that dependence on
the ambient clock is explicit. -/
def monthly_to_intervals (rows : List Row) (billEndDay : Option Nat)
    (travel : List (Nat × Nat)) (nowYear : Nat) : List IntervalRec :=
  if rows.isEmpty then []
  else
    let bm := build_monthly rows
    if bm.1.isEmpty then []
    else toOutput (monthlyAllIntervals bm.1 (bm.2.getD nowYear) billEndDay travel)

/-- The day list walked by the `while current_date <= end_date` loop of
`annual_to_intervals`. -/
def annualDays (startDay endDay : Nat) : List Nat :=
  (List.range (endDay + 1 - startDay)).map (fun i => startDay + i)

/-- The per-day accumulation loop of `annual_to_intervals`: each day is split
over its `[00:00, 23:45]` window (85500 seconds) and merged additively. -/
def annualAllIntervals (daily : ℚ) (travel : List (Nat × Nat))
    (days : List Nat) : List (Nat × ℚ) :=
  days.foldl
    (fun acc d => mergeInto acc (split_to_15min_flat (d * 86400) (d * 86400 + 85500) daily travel))
    []

/-- Models `annual_to_intervals(annual_kwh, start_date_str, end_date_str, ...)`.
A date-string parse failure returns the empty list, exactly as the
`except (ValueError, TypeError): return []` branch of the source.
(When `end < start` the day loop is empty; `total_days = 0` would raise
`ZeroDivisionError` in Python, a case no claim exercises — rational division
by zero yields 0 here.) -/
def annual_to_intervals (annualKwh : ℚ) (startStr endStr : String)
    (travel : List (Nat × Nat)) : List IntervalRec :=
  match parseDate startStr, parseDate endStr with
  | some s, some e =>
    let startDay := rataDie s.1 s.2.1 s.2.2
    let endDay := rataDie e.1 e.2.1 e.2.2
    let totalDays : ℤ := (endDay : ℤ) - (startDay : ℤ) + 1
    let daily : ℚ := annualKwh / (totalDays : ℚ)
    toOutput (annualAllIntervals daily travel (annualDays startDay endDay))
  | _, _ => []

/-- Closed form of the bucket map one calendar day contributes in the annual
path (96 buckets over the day's `[00:00, 23:45]` window, each `daily / 95`
because `num_intervals = round(1425 / 15) = 95` while 96 candidates survive).
Used only to state characterization lemmas about the source functions. -/
def dayBuckets (daily : ℚ) (d : Nat) : List (Nat × ℚ) :=
  (List.range 96).map (fun i => (d * 86400 + 900 * i, daily / 95))

/-- Period resolver as the (amended) specification words it: `periodEnd` is
`min(cutoffDay, lastDayOfMonth)` at 23:59:59 of the month; `periodStart` is
`min(clampedCutoff + 1, lastDayOfPrevMonth)` at 00:00:00 of the previous month
— where `clampedCutoff = min(cutoffDay, lastDayOfMonth(year, month))` — with
month 1 rolling to month 12 of the previous year. -/
def resolvePeriod (year month cutoffDay : Nat) : DT × DT :=
  let clampedCutoff := min cutoffDay (daysInMonth year month)
  let periodEnd : DT := ⟨year, month, clampedCutoff, 23, 59, 59⟩
  let prev : Nat × Nat := if month = 1 then (year - 1, 12) else (year, month - 1)
  let startDay := min (clampedCutoff + 1) (daysInMonth prev.1 prev.2)
  let periodStart : DT := ⟨prev.1, prev.2, startDay, 0, 0, 0⟩
  (periodStart, periodEnd)

/-! ### Helper lemmas: rounding -/

lemma pyRound_intCast (z : ℤ) : pyRound (z : ℚ) = z := by
  unfold pyRound
  rw [Int.floor_intCast]
  norm_num

lemma pyRound_natCast (n : ℕ) : pyRound (n : ℚ) = n := by
  have h : ((n : ℤ) : ℚ) = (n : ℚ) := by push_cast; ring
  rw [← h, pyRound_intCast]

lemma pyRound_sub_small (n : ℕ) (h : 1 ≤ n) : pyRound ((n : ℚ) - 1 / 900) = n := by
  have hn : (1 : ℚ) ≤ (n : ℚ) := by exact_mod_cast h
  unfold pyRound
  have hfl : ⌊(n : ℚ) - 1 / 900⌋ = (n : ℤ) - 1 := by
    rw [Int.floor_eq_iff]
    refine ⟨?_, ?_⟩ <;> push_cast <;> linarith
  rw [hfl]
  have h2 : ¬ (((n : ℚ) - 1 / 900) - (((n : ℤ) - 1 : ℤ) : ℚ) < 1 / 2) := by push_cast; linarith
  have h3 : 1 / 2 < ((n : ℚ) - 1 / 900) - (((n : ℤ) - 1 : ℤ) : ℚ) := by push_cast; linarith
  simp only [h2, if_false, h3, if_true]
  ring

lemma roundTo4_one : roundTo4 1 = 1 := by
  unfold roundTo4
  have h : (1 : ℚ) * 10000 = ((10000 : ℤ) : ℚ) := by norm_num
  rw [h, pyRound_intCast]
  norm_num

/-! ### Helper lemmas: dict operations -/

lemma dictGet_nil (k : Nat) : dictGet [] k = 0 := rfl

lemma dictFind?_cons (kv : Nat × ℚ) (rest : List (Nat × ℚ)) (k : Nat) :
    dictFind? (kv :: rest) k = if kv.1 == k then some kv.2 else dictFind? rest k := by
  simp only [dictFind?, List.find?_cons]
  cases hb : (kv.1 == k) <;> simp [hb]

lemma dictFind?_set_self (d : List (Nat × ℚ)) (k : Nat) (v : ℚ) :
    dictFind? (dictSet d k v) k = some v := by
  induction d with
  | nil => simp [dictSet, dictFind?]
  | cons kv rest ih =>
    by_cases h : kv.1 = k
    · simp [dictSet, h, dictFind?_cons]
    · simp only [dictSet, if_neg h]
      rw [dictFind?_cons]
      have hb : (kv.1 == k) = false := by simp [h]
      rw [hb, if_neg (by simp)]
      exact ih

lemma dictFind?_set_ne (d : List (Nat × ℚ)) (k k' : Nat) (v : ℚ) (h : k' ≠ k) :
    dictFind? (dictSet d k v) k' = dictFind? d k' := by
  induction d with
  | nil => simp [dictSet, dictFind?_cons, dictFind?, Ne.symm h]
  | cons kv rest ih =>
    by_cases hk : kv.1 = k
    · subst hk
      have hstep : dictSet (kv :: rest) kv.1 v = (kv.1, v) :: rest := by
        simp [dictSet]
      rw [hstep, dictFind?_cons, dictFind?_cons]
      have hb : (kv.1 == k') = false := by
        simp only [beq_eq_false_iff_ne, ne_eq]
        exact fun e => h (Eq.symm e)
      simp [hb]
    · simp only [dictSet, if_neg hk]
      rw [dictFind?_cons, dictFind?_cons]
      cases hb : (kv.1 == k') <;> simp [hb, ih]

lemma dictGet_set_self (d : List (Nat × ℚ)) (k : Nat) (v : ℚ) :
    dictGet (dictSet d k v) k = v := by
  rw [dictGet, dictFind?_set_self]; rfl

lemma dictGet_set_ne (d : List (Nat × ℚ)) (k k' : Nat) (v : ℚ) (h : k' ≠ k) :
    dictGet (dictSet d k v) k' = dictGet d k' := by
  rw [dictGet, dictFind?_set_ne d k k' v h]; rfl

lemma dictGet_absent (d : List (Nat × ℚ)) (k : Nat) (h : ∀ kv ∈ d, kv.1 ≠ k) :
    dictGet d k = 0 := by
  induction d with
  | nil => rfl
  | cons kv rest ih =>
    rw [dictGet, dictFind?]
    simp only [List.find?_cons]
    have hb : (kv.1 == k) = false := by
      simp [h kv (List.mem_cons_self kv rest)]
    rw [hb]
    exact ih fun kv2 h2 => h kv2 (List.mem_cons_of_mem kv h2)

lemma dictSet_absent (d : List (Nat × ℚ)) (k : Nat) (v : ℚ) (h : ∀ kv ∈ d, kv.1 ≠ k) :
    dictSet d k v = d ++ [(k, v)] := by
  induction d with
  | nil => rfl
  | cons kv rest ih =>
    have hne : kv.1 ≠ k := h kv (List.mem_cons_self kv rest)
    simp only [dictSet, if_neg hne, List.cons_append, List.cons.injEq, true_and]
    exact ih fun kv2 h2 => h kv2 (List.mem_cons_of_mem kv h2)

lemma dictSet_ne_nil (d : List (Nat × ℚ)) (k : Nat) (v : ℚ) : dictSet d k v ≠ [] := by
  cases d with
  | nil => simp [dictSet]
  | cons kv rest =>
    by_cases h : kv.1 = k <;> simp [dictSet, h]

lemma mergeInto_nil_right (acc : List (Nat × ℚ)) : mergeInto acc [] = acc := rfl

/-! ### Helper lemmas: the additive merge -/

lemma sumV_nil (k : Nat) : sumV [] k = 0 := rfl

lemma sumV_cons (kv : Nat × ℚ) (l : List (Nat × ℚ)) (k : Nat) :
    sumV (kv :: l) k = (if kv.1 == k then kv.2 else 0) + sumV l k := by
  simp only [sumV, List.filter_cons]
  cases hb : (kv.1 == k) <;> simp [hb]

lemma sumV_absent (l : List (Nat × ℚ)) (k : Nat) (h : ∀ kv ∈ l, kv.1 ≠ k) :
    sumV l k = 0 := by
  induction l with
  | nil => rfl
  | cons kv rest ih =>
    rw [sumV_cons]
    have hb : (kv.1 == k) = false := by simp [h kv (List.mem_cons_self kv rest)]
    rw [hb, if_neg (by simp), ih fun kv2 h2 => h kv2 (List.mem_cons_of_mem kv h2)]
    ring

lemma dictGet_mergeInto (l acc : List (Nat × ℚ)) (k : Nat) :
    dictGet (mergeInto acc l) k = dictGet acc k + sumV l k := by
  induction l generalizing acc with
  | nil => rw [mergeInto_nil_right, sumV_nil]; ring
  | cons kv rest ih =>
    have hstep : mergeInto acc (kv :: rest) =
        mergeInto (dictSet acc kv.1 (dictGet acc kv.1 + kv.2)) rest := rfl
    rw [hstep, ih, sumV_cons]
    by_cases h : kv.1 = k
    · subst h
      rw [dictGet_set_self]
      simp only [beq_self_eq_true, if_true]
      ring
    · rw [dictGet_set_ne _ _ _ _ fun e => h (Eq.symm e)]
      have hb : (kv.1 == k) = false := by simp [h]
      rw [hb, if_neg (by simp)]
      ring

lemma sumV_eq_dictGet (l : List (Nat × ℚ)) (k : Nat) (h : (l.map Prod.fst).Nodup) :
    sumV l k = dictGet l k := by
  induction l with
  | nil => rfl
  | cons kv rest ih =>
    simp only [List.map_cons, List.nodup_cons] at h
    rw [sumV_cons, dictGet, dictFind?_cons]
    by_cases hk : kv.1 = k
    · subst hk
      simp only [beq_self_eq_true, if_true]
      have habs : ∀ kv2 ∈ rest, kv2.1 ≠ kv.1 := by
        intro kv2 h2 he
        exact h.1 (List.mem_map.mpr ⟨kv2, h2, he⟩)
      rw [sumV_absent rest kv.1 habs]
      simp
    · have hb : (kv.1 == k) = false := by simp [hk]
      rw [hb, if_neg (by simp), if_neg (by simp), ih h.2, dictGet]
      ring

lemma mergeInto_append (l : List (Nat × ℚ)) :
    ∀ acc : List (Nat × ℚ), (l.map Prod.fst).Nodup →
    (∀ kv ∈ l, ∀ kv2 ∈ acc, kv2.1 ≠ kv.1) →
    mergeInto acc l = acc ++ l := by
  induction l with
  | nil => intro acc _ _; simp [mergeInto_nil_right]
  | cons kv rest ih =>
    intro acc hnd hdis
    simp only [List.map_cons, List.nodup_cons] at hnd
    have habs : ∀ kv2 ∈ acc, kv2.1 ≠ kv.1 :=
      hdis kv (List.mem_cons_self kv rest)
    have hget : dictGet acc kv.1 = 0 := dictGet_absent acc kv.1 habs
    have hstep : mergeInto acc (kv :: rest) =
        mergeInto (dictSet acc kv.1 (dictGet acc kv.1 + kv.2)) rest := rfl
    rw [hstep, hget, zero_add]
    have hset : dictSet acc kv.1 kv.2 = acc ++ [(kv.1, kv.2)] :=
      dictSet_absent acc kv.1 kv.2 habs
    rw [hset]
    have hdis2 : ∀ kv3 ∈ rest, ∀ kv2 ∈ acc ++ [(kv.1, kv.2)], kv2.1 ≠ kv3.1 := by
      intro kv3 h3 kv2 h2
      rcases List.mem_append.mp h2 with h2a | h2b
      · exact hdis kv3 (List.mem_cons_of_mem kv h3) kv2 h2a
      · have : kv2 = (kv.1, kv.2) := List.mem_singleton.mp h2b
        subst this
        intro he
        exact hnd.1 (List.mem_map.mpr ⟨kv3, h3, Eq.symm he⟩)
    rw [ih (acc ++ [(kv.1, kv.2)]) hnd.2 hdis2]
    simp

lemma mergeInto_nil_left (l : List (Nat × ℚ)) (h : (l.map Prod.fst).Nodup) :
    mergeInto [] l = l := by
  have := mergeInto_append l [] h (by intro kv _ kv2 h2; cases h2)
  simpa using this

/-! ### Helper lemmas: bucket candidates and the distributor -/

lemma is_in_travel_range_nil (day : Nat) : is_in_travel_range day [] = false := rfl

lemma day_floor900 (d : Nat) : d * 86400 / 900 * 900 = d * 86400 := by
  have h : d * 86400 = d * 96 * 900 := by ring
  rw [h, Nat.mul_div_cancel _ (by norm_num)]

lemma bucketCandidates_day_range (d0 n : Nat) :
    bucketCandidates (d0 * 86400) ((d0 + n) * 86400 + 86399) =
      (List.range ((n + 1) * 96)).map (fun i => d0 * 86400 + 900 * i) := by
  unfold bucketCandidates
  rw [day_floor900]
  rw [if_pos (by nlinarith [Nat.le_add_right (d0 * 86400) (n * 86400 + 86399)])]
  congr 1
  have he : (d0 + n) * 86400 + 86399 - d0 * 86400 = 86399 + 900 * (n * 96) := by ring_nf; omega
  rw [he, Nat.add_mul_div_left _ _ (by norm_num : (0:ℕ) < 900)]
  norm_num
  ring_nf

lemma bucketCandidates_day_window (d : Nat) :
    bucketCandidates (d * 86400) (d * 86400 + 85500) =
      (List.range 96).map (fun i => d * 86400 + 900 * i) := by
  unfold bucketCandidates
  rw [day_floor900, if_pos (Nat.le_add_right _ _)]
  congr 1
  rw [Nat.add_sub_cancel_left]

lemma bucketCandidates_pairwise (s e : Nat) :
    (bucketCandidates s e).Pairwise (· < ·) := by
  unfold bucketCandidates
  dsimp only
  split_ifs with h
  · refine List.pairwise_map.mpr ?_
    refine (List.pairwise_lt_range _).imp ?_
    intro a b hab
    omega
  · exact List.Pairwise.nil

lemma bucketCandidates_mem_bounds (s e t : Nat) (h : t ∈ bucketCandidates s e) :
    s / 900 * 900 ≤ t ∧ t ≤ e := by
  unfold bucketCandidates at h
  by_cases hc : s / 900 * 900 ≤ e
  · rw [if_pos hc] at h
    rcases List.mem_map.mp h with ⟨i, hi, rfl⟩
    have hi2 : i ≤ (e - s / 900 * 900) / 900 := by
      have := List.mem_range.mp hi
      omega
    constructor
    · omega
    · have h3 : 900 * i ≤ 900 * ((e - s / 900 * 900) / 900) := by omega
      have h4 : 900 * ((e - s / 900 * 900) / 900) ≤ e - s / 900 * 900 := by
        rw [Nat.mul_comm]
        exact Nat.div_mul_le_self _ _
      omega
  · rw [if_neg hc] at h
    cases h

lemma split_all_excluded (s e : Nat) (tot : ℚ) (travel : List (Nat × Nat))
    (h : ∀ t ∈ bucketCandidates s e, is_in_travel_range (t / 86400) travel = true) :
    split_to_15min_flat s e tot travel = [] := by
  unfold split_to_15min_flat
  have hk : (bucketCandidates s e).filter
      (fun t => !(is_in_travel_range (t / 86400) travel)) = [] := by
    refine List.filter_eq_nil_iff.mpr ?_
    intro t ht
    simp [h t ht]
  dsimp only
  simp only [hk]
  split_ifs <;> simp

lemma map_fst_pair (l : List Nat) (f : Nat → ℚ) :
    (l.map (fun t => (t, f t))).map Prod.fst = l := by
  induction l with
  | nil => rfl
  | cons a r ih => simp [ih]

lemma split_keys_nodup (s e : Nat) (tot : ℚ) (travel : List (Nat × Nat)) :
    ((split_to_15min_flat s e tot travel).map Prod.fst).Nodup := by
  have hnd : ((bucketCandidates s e).filter
      (fun t => !(is_in_travel_range (t / 86400) travel))).Nodup := by
    refine List.Pairwise.imp ?_ ((bucketCandidates_pairwise s e).filter _)
    intro a b hab
    omega
  unfold split_to_15min_flat
  dsimp only
  split_ifs with h1 h2 h3
  · simp
  · rw [map_fst_pair]
    exact hnd
  · simp
  · rw [map_fst_pair]
    exact hnd

lemma split_day_window (d : Nat) (tot : ℚ) :
    split_to_15min_flat (d * 86400) (d * 86400 + 85500) tot [] = dayBuckets tot d := by
  unfold split_to_15min_flat
  dsimp only
  have harg : ((((d * 86400 + 85500 : ℕ)) : ℚ) - (((d * 86400 : ℕ)) : ℚ)) / 60 / 15
      = ((95 : ℤ) : ℚ) := by
    push_cast
    ring
  rw [harg, pyRound_intCast]
  rw [if_neg (by norm_num)]
  have hkept : (bucketCandidates (d * 86400) (d * 86400 + 85500)).filter
      (fun t => !(is_in_travel_range (t / 86400) [])) =
      (List.range 96).map (fun i => d * 86400 + 900 * i) := by
    rw [bucketCandidates_day_window]
    simp [is_in_travel_range_nil]
  rw [hkept, List.length_map, List.length_range]
  rw [if_neg (by norm_num)]
  unfold dayBuckets
  rw [List.map_map]
  simp [Function.comp_def]

lemma split_full_range (a n : Nat) (tot : ℚ) :
    split_to_15min_flat (a * 86400) ((a + n) * 86400 + 86399) tot [] =
      (List.range ((n + 1) * 96)).map
        (fun i => (a * 86400 + 900 * i, tot / (((n + 1) * 96 : ℕ) : ℚ))) := by
  unfold split_to_15min_flat
  dsimp only
  have harg : ((((a + n) * 86400 + 86399 : ℕ) : ℚ) - (((a * 86400 : ℕ)) : ℚ)) / 60 / 15
      = (((n + 1) * 96 : ℕ) : ℚ) - 1 / 900 := by
    push_cast
    ring
  rw [harg, pyRound_sub_small _ (by omega)]
  rw [if_neg (by omega)]
  have hkept : (bucketCandidates (a * 86400) ((a + n) * 86400 + 86399)).filter
      (fun t => !(is_in_travel_range (t / 86400) [])) =
      (List.range ((n + 1) * 96)).map (fun i => a * 86400 + 900 * i) := by
    rw [bucketCandidates_day_range]
    simp [is_in_travel_range_nil]
  rw [hkept, List.length_map, List.length_range]
  rw [if_neg (by omega)]
  rw [List.map_map]
  simp [Function.comp_def]

/-! ### Helper lemmas: sorting and the output stage -/

lemma insertByKey_perm (kv : Nat × ℚ) (l : List (Nat × ℚ)) :
    (insertByKey kv l).Perm (kv :: l) := by
  induction l with
  | nil => exact List.Perm.refl _
  | cons h t ih =>
    unfold insertByKey
    split_ifs with hc
    · exact List.Perm.refl _
    · exact (ih.cons h).trans (List.Perm.swap kv h t)

lemma sortByKey_perm (l : List (Nat × ℚ)) : (sortByKey l).Perm l := by
  induction l with
  | nil => exact List.Perm.refl _
  | cons kv t ih => exact (insertByKey_perm kv (sortByKey t)).trans (ih.cons kv)

lemma length_filterMap_out (l : List (Nat × ℚ)) :
    (l.filterMap
        (fun kv => if 0 < kv.2 then some (⟨kv.1, roundTo4 kv.2⟩ : IntervalRec) else none)).length
      = l.countP (fun kv => decide (0 < kv.2)) := by
  induction l with
  | nil => rfl
  | cons kv t ih =>
    rw [List.filterMap_cons, List.countP_cons]
    by_cases h : 0 < kv.2
    · simp [h, ih]
    · simp [h, ih]

lemma toOutput_length (l : List (Nat × ℚ)) :
    (toOutput l).length = l.countP (fun kv => decide (0 < kv.2)) := by
  unfold toOutput
  rw [length_filterMap_out]
  exact (sortByKey_perm l).countP_eq _

lemma sum_filterMap_out (l : List (Nat × ℚ)) :
    ((l.filterMap
        (fun kv => if 0 < kv.2 then some (⟨kv.1, roundTo4 kv.2⟩ : IntervalRec) else none)).map
      IntervalRec.consumption).sum
      = ((l.filter (fun kv => decide (0 < kv.2))).map (fun kv => roundTo4 kv.2)).sum := by
  induction l with
  | nil => rfl
  | cons kv t ih =>
    rw [List.filterMap_cons, List.filter_cons]
    by_cases h : 0 < kv.2
    · simp [h, ih]
    · simp [h, ih]

lemma toOutput_sum (l : List (Nat × ℚ)) :
    ((toOutput l).map IntervalRec.consumption).sum
      = ((l.filter (fun kv => decide (0 < kv.2))).map (fun kv => roundTo4 kv.2)).sum := by
  unfold toOutput
  rw [sum_filterMap_out]
  exact List.Perm.sum_eq (List.Perm.map _ (List.Perm.filter _ (sortByKey_perm l)))

lemma mem_toOutput (l : List (Nat × ℚ)) (r : IntervalRec) (h : r ∈ toOutput l) :
    ∃ kv ∈ l, 0 < kv.2 ∧ r = ⟨kv.1, roundTo4 kv.2⟩ := by
  unfold toOutput at h
  rcases List.mem_filterMap.mp h with ⟨kv, hmem, heq⟩
  have hmem2 : kv ∈ l := (sortByKey_perm l).mem_iff.mp hmem
  by_cases hp : 0 < kv.2
  · rw [if_pos hp] at heq
    exact ⟨kv, hmem2, hp, (Option.some_injective _ heq).symm⟩
  · rw [if_neg hp] at heq
    cases heq

lemma countP_pair_map_pos (n : Nat) (key : Nat → Nat) (c : ℚ) (h : 0 < c) :
    ((List.range n).map (fun i => (key i, c))).countP (fun kv => decide (0 < kv.2)) = n := by
  rw [List.countP_eq_length.mpr]
  · simp
  · intro kv hkv
    rcases List.mem_map.mp hkv with ⟨i, _, rfl⟩
    simpa using h

lemma countP_pair_map_nonpos (n : Nat) (key : Nat → Nat) (c : ℚ) (h : ¬ 0 < c) :
    ((List.range n).map (fun i => (key i, c))).countP (fun kv => decide (0 < kv.2)) = 0 := by
  rw [List.countP_eq_zero.mpr]
  intro kv hkv
  rcases List.mem_map.mp hkv with ⟨i, _, rfl⟩
  simpa using h

lemma map_const_list {α β : Type} (l : List α) (x : β) :
    l.map (fun _ => x) = List.replicate l.length x := by
  induction l with
  | nil => rfl
  | cons a t ih => simp [ih, List.replicate_succ]

lemma toOutput_pair_map_sum (n : Nat) (key : Nat → Nat) (c : ℚ) (h : 0 < c) :
    ((toOutput ((List.range n).map (fun i => (key i, c)))).map IntervalRec.consumption).sum
      = n * roundTo4 c := by
  rw [toOutput_sum]
  have hf : ((List.range n).map (fun i => (key i, c))).filter (fun kv => decide (0 < kv.2))
      = (List.range n).map (fun i => (key i, c)) := by
    rw [List.filter_eq_self.mpr]
    intro kv hkv
    rcases List.mem_map.mp hkv with ⟨i, _, rfl⟩
    simpa using h
  rw [hf, List.map_map]
  have hc : ((fun kv => roundTo4 kv.2) ∘ (fun i => ((key i, c) : Nat × ℚ))) =
      fun _ => roundTo4 c := rfl
  rw [hc, map_const_list, List.sum_replicate, List.length_range, nsmul_eq_mul]

/-! ### Helper lemmas: the annual day loop -/

lemma dayBuckets_key_bounds (daily : ℚ) (d : Nat) (kv : Nat × ℚ)
    (h : kv ∈ dayBuckets daily d) : d * 86400 ≤ kv.1 ∧ kv.1 < (d + 1) * 86400 := by
  unfold dayBuckets at h
  rcases List.mem_map.mp h with ⟨i, hi, rfl⟩
  have hi2 := List.mem_range.mp hi
  omega

lemma dayBuckets_keys_nodup (daily : ℚ) (d : Nat) :
    ((dayBuckets daily d).map Prod.fst).Nodup := by
  unfold dayBuckets
  rw [List.map_map]
  refine List.pairwise_map.mpr ?_
  refine (List.pairwise_lt_range 96).imp ?_
  intro a b hab
  simp only [Function.comp_apply]
  omega

lemma mergeInto_dayBuckets (daily : ℚ) (d : Nat) (acc : List (Nat × ℚ))
    (hacc : ∀ kv ∈ acc, kv.1 < d * 86400) :
    mergeInto acc (dayBuckets daily d) = acc ++ dayBuckets daily d := by
  apply mergeInto_append _ _ (dayBuckets_keys_nodup daily d)
  intro kv hkv kv2 hkv2
  have h1 := (dayBuckets_key_bounds daily d kv hkv).1
  have h2 := hacc kv2 hkv2
  omega

lemma annual_fold_flatten (daily : ℚ) :
    ∀ (n d0 : Nat) (acc : List (Nat × ℚ)),
      (∀ kv ∈ acc, kv.1 < d0 * 86400) →
      List.foldl
          (fun a d => mergeInto a (split_to_15min_flat (d * 86400) (d * 86400 + 85500) daily []))
          acc ((List.range n).map (fun i => d0 + i))
        = acc ++ ((List.range n).map (fun j => dayBuckets daily (d0 + j))).flatten := by
  intro n
  induction n with
  | zero =>
    intro d0 acc _
    simp
  | succ m ih =>
    intro d0 acc hacc
    rw [List.range_succ_eq_map, List.map_cons, List.map_map, List.foldl_cons]
    rw [show d0 + 0 = d0 from rfl]
    rw [split_day_window d0 daily, mergeInto_dayBuckets daily d0 acc hacc]
    have hmap : (List.range m).map ((fun i => d0 + i) ∘ Nat.succ)
        = (List.range m).map (fun i => (d0 + 1) + i) := by
      refine List.map_congr_left ?_
      intro i _
      simp only [Function.comp_apply]
      omega
    have hacc2 : ∀ kv ∈ acc ++ dayBuckets daily d0, kv.1 < (d0 + 1) * 86400 := by
      intro kv hkv
      rcases List.mem_append.mp hkv with h | h
      · have := hacc kv h
        omega
      · exact (dayBuckets_key_bounds daily d0 kv h).2
    rw [hmap, ih (d0 + 1) (acc ++ dayBuckets daily d0) hacc2]
    rw [List.map_cons, List.map_map, List.flatten_cons, List.append_assoc]
    have hF : (List.range m).map ((fun j => dayBuckets daily (d0 + j)) ∘ Nat.succ)
        = (List.range m).map (fun j => dayBuckets daily (d0 + 1 + j)) := by
      refine List.map_congr_left ?_
      intro j _
      simp only [Function.comp_apply]
      congr 1
      omega
    rw [hF]
    simp

lemma annualAllIntervals_flatten (daily : ℚ) (d0 n : Nat) :
    annualAllIntervals daily [] ((List.range n).map (fun i => d0 + i))
      = ((List.range n).map (fun j => dayBuckets daily (d0 + j))).flatten := by
  unfold annualAllIntervals
  have := annual_fold_flatten daily n d0 [] (by intro kv h; cases h)
  simpa using this

/-! ### Helper lemmas: the monthly grouping loop -/

lemma buildStep_invalid (acc : List (Nat × ℚ) × Option Nat) (r : Row)
    (h : ¬(1 ≤ r.month ∧ r.month ≤ 12)) : buildStep acc r = acc := by
  unfold buildStep
  rw [if_neg h]

lemma buildStep_valid (acc : List (Nat × ℚ) × Option Nat) (r : Row)
    (h : 1 ≤ r.month ∧ r.month ≤ 12) :
    buildStep acc r = (dictSet acc.1 r.month r.total,
      match acc.2 with
      | none => r.year
      | some y => some y) := by
  unfold buildStep
  rw [if_pos h]

lemma foldl_buildStep_snd_some (rows : List Row) :
    ∀ (d : List (Nat × ℚ)) (y : Nat),
      (List.foldl buildStep (d, some y) rows).2 = some y := by
  induction rows with
  | nil => intro d y; rfl
  | cons r t ih =>
    intro d y
    rw [List.foldl_cons]
    by_cases h : 1 ≤ r.month ∧ r.month ≤ 12
    · rw [buildStep_valid _ _ h]
      exact ih _ y
    · rw [buildStep_invalid _ _ h]
      exact ih d y

lemma foldl_buildStep_snd (rows : List Row) :
    ∀ d : List (Nat × ℚ),
      (List.foldl buildStep (d, none) rows).2 =
        ((rows.filter (fun r =>
          (decide (1 ≤ r.month) && decide (r.month ≤ 12)) && r.year.isSome)).head?).bind
          Row.year := by
  induction rows with
  | nil => intro d; rfl
  | cons r t ih =>
    intro d
    rw [List.foldl_cons, List.filter_cons]
    by_cases h : 1 ≤ r.month ∧ r.month ≤ 12
    · by_cases hy : r.year.isSome = true
      · have hp : ((decide (1 ≤ r.month) && decide (r.month ≤ 12)) && r.year.isSome) = true := by
          simp [h.1, h.2, hy]
        rw [if_pos hp]
        obtain ⟨y, hy2⟩ := Option.isSome_iff_exists.mp hy
        rw [buildStep_valid _ _ h]
        simp only [hy2]
        rw [foldl_buildStep_snd_some]
        simp [hy2]
      · have hp : ((decide (1 ≤ r.month) && decide (r.month ≤ 12)) && r.year.isSome) = false := by
          simp [hy]
        rw [if_neg (by simp [hp])]
        have hy3 : r.year = none := Option.not_isSome_iff_eq_none.mp hy
        rw [buildStep_valid _ _ h]
        simp only [hy3]
        exact ih _
    · have hp : ((decide (1 ≤ r.month) && decide (r.month ≤ 12)) && r.year.isSome) = false := by
        rcases Decidable.not_and_iff_or_not.mp h with h1 | h1 <;> simp [h1]
      rw [if_neg (by simp [hp]), buildStep_invalid _ _ h]
      exact ih d

lemma build_monthly_snd (rows : List Row) :
    (build_monthly rows).2 =
      ((rows.filter (fun r =>
        (decide (1 ≤ r.month) && decide (r.month ≤ 12)) && r.year.isSome)).head?).bind
        Row.year :=
  foldl_buildStep_snd rows []

lemma foldl_buildStep_isSome (rows : List Row) :
    ∀ acc : List (Nat × ℚ) × Option Nat,
      (∀ r ∈ rows, r.year.isSome = true) →
      (acc.1 ≠ [] → acc.2.isSome = true) →
      ((List.foldl buildStep acc rows).1 ≠ [] →
        (List.foldl buildStep acc rows).2.isSome = true) := by
  induction rows with
  | nil => intro acc _ hinv; exact hinv
  | cons r t ih =>
    intro acc hall hinv
    rw [List.foldl_cons]
    refine ih (buildStep acc r) (fun r2 h2 => hall r2 (List.mem_cons_of_mem r h2)) ?_
    by_cases h : 1 ≤ r.month ∧ r.month ≤ 12
    · rw [buildStep_valid _ _ h]
      intro _
      cases hacc : acc.2 with
      | none => simpa [hacc] using hall r (List.mem_cons_self r t)
      | some y => simp [hacc]
    · rw [buildStep_invalid _ _ h]
      exact hinv

lemma buildStep_year_irrelevant (acc : List (Nat × ℚ) × Option Nat) (r : Row)
    (y : Option Nat) (h : acc.2.isSome = true) :
    buildStep acc { r with year := y } = buildStep acc r := by
  obtain ⟨y0, hy0⟩ := Option.isSome_iff_exists.mp h
  unfold buildStep
  rw [hy0]

lemma build_monthly_skip (l1 l2 : List Row) (r : Row)
    (h : ¬(1 ≤ r.month ∧ r.month ≤ 12)) :
    build_monthly (l1 ++ r :: l2) = build_monthly (l1 ++ l2) := by
  unfold build_monthly
  rw [List.foldl_append, List.foldl_append, List.foldl_cons, buildStep_invalid _ _ h]

lemma foldl_buildStep_find (m : Nat) (hm : 1 ≤ m ∧ m ≤ 12) (rows : List Row) :
    ∀ acc : List (Nat × ℚ) × Option Nat,
      dictFind? (List.foldl buildStep acc rows).1 m =
        (match (rows.filter (fun r => r.month == m)).getLast? with
         | some r => some r.total
         | none => dictFind? acc.1 m) := by
  induction rows using List.reverseRecOn with
  | nil => intro acc; simp
  | append_singleton l r ih =>
    intro acc
    rw [List.foldl_append, List.filter_append]
    by_cases hr : (r.month == m) = true
    · have hrm : r.month = m := by simpa using hr
      have hval : 1 ≤ r.month ∧ r.month ≤ 12 := by rw [hrm]; exact hm
      simp only [List.foldl_cons, List.foldl_nil]
      rw [buildStep_valid _ _ hval]
      simp only [List.filter_cons, hr, if_true, List.filter_nil]
      rw [List.getLast?_concat]
      rw [hrm, dictFind?_set_self]
    · have hfil : List.filter (fun r2 => r2.month == m) [r] = [] := by
        rw [List.filter_cons, if_neg hr]
        rfl
      rw [hfil, List.append_nil]
      simp only [List.foldl_cons, List.foldl_nil]
      by_cases hval : 1 ≤ r.month ∧ r.month ≤ 12
      · rw [buildStep_valid _ _ hval]
        have hne : m ≠ r.month := by
          intro he
          rw [he] at hr
          simp at hr
        rw [dictFind?_set_ne _ _ _ _ hne]
        exact ih acc
      · rw [buildStep_invalid _ _ hval]
        exact ih acc

lemma build_monthly_find (m : Nat) (hm : 1 ≤ m ∧ m ≤ 12) (rows : List Row) :
    dictFind? (build_monthly rows).1 m =
      ((rows.filter (fun r => r.month == m)).getLast?).map Row.total := by
  rw [build_monthly, foldl_buildStep_find m hm rows ([], none)]
  cases hg : (rows.filter (fun r => r.month == m)).getLast? with
  | none => rfl
  | some r => rfl

/-! ### Helper lemmas: the monthly pipeline -/

lemma monthly_to_intervals_congr (rows rows' : List Row) (c : Option Nat)
    (travel : List (Nat × Nat)) (n : Nat)
    (hb : build_monthly rows = build_monthly rows') :
    monthly_to_intervals rows c travel n = monthly_to_intervals rows' c travel n := by
  unfold monthly_to_intervals
  by_cases h : rows = []
  · rw [if_pos (show rows.isEmpty = true by simp [h])]
    by_cases h' : rows' = []
    · rw [if_pos (show rows'.isEmpty = true by simp [h'])]
    · rw [if_neg (show ¬ rows'.isEmpty = true by simpa using h')]
      have hd : (build_monthly rows').1 = [] := by
        rw [← hb, h]
        rfl
      rw [if_pos (show (build_monthly rows').1.isEmpty = true by simp [hd])]
  · rw [if_neg (show ¬ rows.isEmpty = true by simpa using h)]
    by_cases h' : rows' = []
    · have hd : (build_monthly rows).1 = [] := by
        rw [hb, h']
        rfl
      rw [if_pos (show (build_monthly rows).1.isEmpty = true by simp [hd])]
      rw [if_pos (show rows'.isEmpty = true by simp [h'])]
    · rw [if_neg (show ¬ rows'.isEmpty = true by simpa using h'), hb]

lemma monthly_eq_toOutput (rows : List Row) (c : Option Nat)
    (travel : List (Nat × Nat)) (n : Nat) (h1 : rows ≠ [])
    (h2 : (build_monthly rows).1 ≠ []) :
    monthly_to_intervals rows c travel n =
      toOutput (monthlyAllIntervals (build_monthly rows).1
        ((build_monthly rows).2.getD n) c travel) := by
  unfold monthly_to_intervals
  rw [if_neg (show ¬ rows.isEmpty = true by simpa using h1),
    if_neg (show ¬ (build_monthly rows).1.isEmpty = true by simpa using h2)]

/-! ### Claim C2 -/

/-- C2 (counterexample): the claim's clamp example is wrong on the code.
`resolvePeriod(2024, 2, 31)` does NOT start at `2024-01-31T00:00:00`:
`_get_billing_period` clamps the cutoff day to February's last day (29)
BEFORE adding 1, so the period starts at `min(29 + 1, 31) = 30` January, not
at `min(31 + 1, 31) = 31` January as the claim's formula would give. -/
theorem c2_clamp_counterexample :
    get_billing_period 2024 2 31 ≠
      (⟨2024, 1, 31, 0, 0, 0⟩, ⟨2024, 2, 29, 23, 59, 59⟩) := by
  decide

/-- C2 (amended): for every year, month and cutoff day, the resolver returns
`periodEnd = min(cutoffDay, lastDayOfMonth)` at 23:59:59 of the month and
`periodStart = min(min(cutoffDay, lastDayOfMonth(year, month)) + 1,
lastDayOfPrevMonth)` at 00:00:00 of the previous month (month 1 rolling to
month 12 of year-1); in particular `resolvePeriod(2024, 3, 15)` =
`(2024-02-16T00:00:00, 2024-03-15T23:59:59)` and `resolvePeriod(2024, 2, 31)`
= `(2024-01-30T00:00:00, 2024-02-29T23:59:59)`. -/
theorem c2_billing_period_amended :
    (∀ year month cutoffDay : Nat,
        get_billing_period year month cutoffDay = resolvePeriod year month cutoffDay)
    ∧ get_billing_period 2024 3 15 =
        (⟨2024, 2, 16, 0, 0, 0⟩, ⟨2024, 3, 15, 23, 59, 59⟩)
    ∧ get_billing_period 2024 2 31 =
        (⟨2024, 1, 30, 0, 0, 0⟩, ⟨2024, 2, 29, 23, 59, 59⟩) :=
  ⟨fun _ _ _ => rfl, by decide, by decide⟩

/-! ### Claim C6 -/

/-- C6: an annual conversion whose start or end date string fails to parse
returns the empty list — zero buckets, no partial output, the whole annual
conversion fails atomically (the source logs the invalid-date-format error and
returns `[]` from the `except` branch). -/
theorem c6_annual_atomic_failure (kwh : ℚ) (s e : String)
    (travel : List (Nat × Nat)) (h : parseDate s = none ∨ parseDate e = none) :
    annual_to_intervals kwh s e travel = [] := by
  unfold annual_to_intervals
  rcases h with h | h
  · rw [h]
  · cases hs : parseDate s with
    | none => rfl
    | some v => rw [h]

/-- C6 witness: `"2023-13-01"` (month 13) is unparseable, and the annual
conversion on it yields no buckets at all. -/
theorem c6_annual_atomic_failure_witness :
    (parseDate "2023-13-01" = none ∨ parseDate "2023-12-31" = none)
    ∧ annual_to_intervals 1200 "2023-13-01" "2023-12-31" [] = [] :=
  ⟨Or.inl (by decide), c6_annual_atomic_failure 1200 _ _ [] (Or.inl (by decide))⟩

/-! ### Claim C9 -/

/-- C9: in the monthly grouping dict, the value stored under a valid month `m`
is exactly the total of the LAST row of the batch carrying month `m` (earlier
rows with the same month are overwritten, not summed; if no row carries `m`
nothing is stored). -/
theorem c9_duplicate_month_overwrite (rows : List Row) (m : Nat)
    (h1 : 1 ≤ m) (h2 : m ≤ 12) :
    dictFind? (build_monthly rows).1 m =
      ((rows.filter (fun r => r.month == m)).getLast?).map Row.total :=
  build_monthly_find m ⟨h1, h2⟩ rows

/-- C9 witness: two January rows with totals 100 and 250 — the dict holds the
last row's 250. -/
theorem c9_duplicate_month_overwrite_witness :
    (1 ≤ 1 ∧ (1 : Nat) ≤ 12)
    ∧ dictFind? (build_monthly [⟨1, 100, none⟩, ⟨1, 250, none⟩]).1 1 =
        (([(⟨1, 100, none⟩ : Row), ⟨1, 250, none⟩].filter
          (fun r => r.month == 1)).getLast?).map Row.total :=
  ⟨⟨le_refl 1, by norm_num⟩,
    c9_duplicate_month_overwrite [⟨1, 100, none⟩, ⟨1, 250, none⟩] 1 (le_refl 1) (by norm_num)⟩

/-! ### Claim C8 -/

/-- C8: when every monthly row carries an explicit year, the conversion never
consults the current-time default: two runs with arbitrary (different) ambient
clock years produce identical output sequences. -/
theorem c8_determinism (rows : List Row) (c : Option Nat)
    (travel : List (Nat × Nat)) (n1 n2 : Nat)
    (h : ∀ r ∈ rows, r.year.isSome = true) :
    monthly_to_intervals rows c travel n1 = monthly_to_intervals rows c travel n2 := by
  unfold monthly_to_intervals
  by_cases he : rows = []
  · rw [if_pos (show rows.isEmpty = true by simp [he]),
      if_pos (show rows.isEmpty = true by simp [he])]
  · rw [if_neg (show ¬ rows.isEmpty = true by simpa using he),
      if_neg (show ¬ rows.isEmpty = true by simpa using he)]
    by_cases hd : (build_monthly rows).1 = []
    · rw [if_pos (show (build_monthly rows).1.isEmpty = true by simp [hd]),
        if_pos (show (build_monthly rows).1.isEmpty = true by simp [hd])]
    · rw [if_neg (show ¬ (build_monthly rows).1.isEmpty = true by simpa using hd),
        if_neg (show ¬ (build_monthly rows).1.isEmpty = true by simpa using hd)]
      have hsome : (build_monthly rows).2.isSome = true :=
        foldl_buildStep_isSome rows ([], none) h (fun hc => absurd rfl hc) hd
      obtain ⟨y, hy⟩ := Option.isSome_iff_exists.mp hsome
      have hb : build_monthly rows = ((build_monthly rows).1, some y) := by
        rw [← hy]
      rw [hb]
      rfl

/-- C8 witness: a one-row batch with an explicit year gives the same output
under ambient years 1999 and 2050. -/
theorem c8_determinism_witness :
    (∀ r ∈ [(⟨1, 10, some 2023⟩ : Row)], r.year.isSome = true)
    ∧ monthly_to_intervals [⟨1, 10, some 2023⟩] none [] 1999
        = monthly_to_intervals [⟨1, 10, some 2023⟩] none [] 2050 :=
  ⟨by decide, c8_determinism [⟨1, 10, some 2023⟩] none [] 1999 2050 (by decide)⟩

/-! ### Claim C10 -/

/-- C10: (a) the single year of a monthly batch is the year of the FIRST row
whose month is valid and which carries a year; (b) once some earlier row has
supplied the year, changing a later row's year field to anything does not
change the batch output at all — later year values are ignored, and every
month of the batch is resolved against the one chosen year. -/
theorem c10_single_year_per_batch :
    (∀ rows : List Row,
        (build_monthly rows).2 =
          ((rows.filter (fun r =>
            (decide (1 ≤ r.month) && decide (r.month ≤ 12)) && r.year.isSome)).head?).bind
            Row.year)
    ∧ ∀ (rows1 rows2 : List Row) (r : Row) (y : Option Nat) (c : Option Nat)
        (travel : List (Nat × Nat)) (n : Nat),
        (∃ r0 ∈ rows1, (1 ≤ r0.month ∧ r0.month ≤ 12) ∧ r0.year.isSome = true) →
        monthly_to_intervals (rows1 ++ { r with year := y } :: rows2) c travel n
          = monthly_to_intervals (rows1 ++ r :: rows2) c travel n := by
  constructor
  · exact build_monthly_snd
  · intro rows1 rows2 r y c travel n hex
    obtain ⟨r0, hr0, hval, hsome⟩ := hex
    have hs : (List.foldl buildStep ([], none) rows1).2.isSome = true := by
      have hb : (List.foldl buildStep ([], none) rows1).2 = (build_monthly rows1).2 := rfl
      rw [hb, build_monthly_snd]
      have hpred : ((decide (1 ≤ r0.month) && decide (r0.month ≤ 12)) && r0.year.isSome)
          = true := by
        simp [hval.1, hval.2, hsome]
      have hmemf : r0 ∈ rows1.filter (fun r2 =>
          (decide (1 ≤ r2.month) && decide (r2.month ≤ 12)) && r2.year.isSome) :=
        List.mem_filter.mpr ⟨hr0, hpred⟩
      cases hf : rows1.filter (fun r2 =>
          (decide (1 ≤ r2.month) && decide (r2.month ≤ 12)) && r2.year.isSome) with
      | nil =>
        rw [hf] at hmemf
        cases hmemf
      | cons a t =>
        have ha : a ∈ rows1.filter (fun r2 =>
            (decide (1 ≤ r2.month) && decide (r2.month ≤ 12)) && r2.year.isSome) := by
          rw [hf]
          exact List.mem_cons_self a t
        have hpa := (List.mem_filter.mp ha).2
        have hya : a.year.isSome = true := by
          simp only [Bool.and_eq_true] at hpa
          exact hpa.2
        simp only [List.head?_cons, Option.some_bind]
        exact hya
    apply monthly_to_intervals_congr
    unfold build_monthly
    rw [List.foldl_append, List.foldl_append, List.foldl_cons, List.foldl_cons,
      buildStep_year_irrelevant _ _ _ hs]

/-- C10 witness: with a first valid row carrying 2023, replacing the second
row's year by 1900 leaves the output unchanged. -/
theorem c10_single_year_per_batch_witness :
    (∃ r0 ∈ [(⟨1, 100, some 2023⟩ : Row)],
      (1 ≤ r0.month ∧ r0.month ≤ 12) ∧ r0.year.isSome = true)
    ∧ monthly_to_intervals
        ([(⟨1, 100, some 2023⟩ : Row)] ++
          { (⟨2, 200, some 2024⟩ : Row) with year := some 1900 } :: []) none [] 0
      = monthly_to_intervals
        ([(⟨1, 100, some 2023⟩ : Row)] ++ (⟨2, 200, some 2024⟩ : Row) :: []) none [] 0 :=
  ⟨⟨⟨1, 100, some 2023⟩, by decide, by decide, by decide⟩,
    c10_single_year_per_batch.2 [⟨1, 100, some 2023⟩] [] ⟨2, 200, some 2024⟩
      (some 1900) none [] 0
      ⟨⟨1, 100, some 2023⟩, by decide, by decide, by decide⟩⟩

/-! ### Claim C7 -/

/-- C7: for a batch of two valid monthly entries with distinct months, the
merged `all_intervals` dict at any timestamp carries exactly the sum of the
two entries' independent contributions at that timestamp — contributions sum,
they never overwrite one another. -/
theorem c7_additive_merge (r1 r2 : Row) (c : Option Nat)
    (travel : List (Nat × Nat)) (n ts : Nat)
    (h1 : 1 ≤ r1.month ∧ r1.month ≤ 12) (h2 : 1 ≤ r2.month ∧ r2.month ≤ 12)
    (hne : r1.month ≠ r2.month) :
    dictGet (monthlyAllIntervals (build_monthly [r1, r2]).1
        ((build_monthly [r1, r2]).2.getD n) c travel) ts
      = dictGet (entrySplit ((build_monthly [r1, r2]).2.getD n) c travel
          r1.month r1.total) ts
        + dictGet (entrySplit ((build_monthly [r1, r2]).2.getD n) c travel
            r2.month r2.total) ts := by
  have hdict : (build_monthly [r1, r2]).1 = [(r1.month, r1.total), (r2.month, r2.total)] := by
    unfold build_monthly
    rw [List.foldl_cons, List.foldl_cons, List.foldl_nil,
      buildStep_valid _ _ h1, buildStep_valid _ _ h2]
    simp [dictSet, hne]
  rw [hdict]
  unfold monthlyAllIntervals
  rw [List.foldl_cons, List.foldl_cons, List.foldl_nil]
  have hnd1 : ((entrySplit ((build_monthly [r1, r2]).2.getD n) c travel
      r1.month r1.total).map Prod.fst).Nodup := split_keys_nodup _ _ _ _
  have hnd2 : ((entrySplit ((build_monthly [r1, r2]).2.getD n) c travel
      r2.month r2.total).map Prod.fst).Nodup := split_keys_nodup _ _ _ _
  rw [dictGet_mergeInto, dictGet_mergeInto, sumV_eq_dictGet _ _ hnd1,
    sumV_eq_dictGet _ _ hnd2, dictGet_nil]
  ring

/-- C7 witness: April and May 2023 with cutoff day 31 — May's period start is
clamped back onto April 30th, so the two periods share that day's buckets. -/
theorem c7_additive_merge_witness :
    ((1 ≤ (4 : Nat) ∧ (4 : Nat) ≤ 12) ∧ (1 ≤ (5 : Nat) ∧ (5 : Nat) ≤ 12)
      ∧ (4 : Nat) ≠ 5)
    ∧ dictGet (monthlyAllIntervals
        (build_monthly [⟨4, 96, some 2023⟩, ⟨5, 100, none⟩]).1
        ((build_monthly [⟨4, 96, some 2023⟩, ⟨5, 100, none⟩]).2.getD 0)
        (some 31) []) (dtSec ⟨2023, 4, 30, 0, 0, 0⟩)
      = dictGet (entrySplit
          ((build_monthly [⟨4, 96, some 2023⟩, ⟨5, 100, none⟩]).2.getD 0)
          (some 31) [] 4 96) (dtSec ⟨2023, 4, 30, 0, 0, 0⟩)
        + dictGet (entrySplit
            ((build_monthly [⟨4, 96, some 2023⟩, ⟨5, 100, none⟩]).2.getD 0)
            (some 31) [] 5 100) (dtSec ⟨2023, 4, 30, 0, 0, 0⟩) :=
  ⟨⟨⟨by norm_num, by norm_num⟩, ⟨by norm_num, by norm_num⟩, by norm_num⟩,
    c7_additive_merge ⟨4, 96, some 2023⟩ ⟨5, 100, none⟩ (some 31) [] 0
      (dtSec ⟨2023, 4, 30, 0, 0, 0⟩) ⟨by norm_num, by norm_num⟩
      ⟨by norm_num, by norm_num⟩ (by norm_num)⟩

/-! ### Claim C1 -/

lemma annual_eq (kwh : ℚ) (s e : String) (travel : List (Nat × Nat))
    (ys ms ds ye me de : Nat) (hs : parseDate s = some (ys, ms, ds))
    (he : parseDate e = some (ye, me, de)) :
    annual_to_intervals kwh s e travel =
      toOutput (annualAllIntervals
        (kwh / ((((rataDie ye me de : ℤ) - (rataDie ys ms ds : ℤ) + 1) : ℤ) : ℚ))
        travel (annualDays (rataDie ys ms ds) (rataDie ye me de))) := by
  unfold annual_to_intervals
  rw [hs, he]

/-- C1 (conservation violation, annual path): for the annual entry with
`totalEnergyKwh = 95` over the single day 2023-01-01 and no exclusions, the
produced buckets sum to 96, not 95 — each day yields 96 surviving candidate
buckets (00:00 through 23:45) while `num_intervals = round(1425 / 15) = 95`,
and `len(intervals) < num_intervals` never fires, so each bucket carries
`daily / 95` and the day over-counts by a factor of 96/95.  The relative error
(1/95) far exceeds the claimed 1e-6 tolerance; this also contradicts the
source file's own test `test_annual_to_15min`, which asserts the annual sum
within 10 kWh. -/
theorem c1_conservation_violation :
    ((annual_to_intervals 95 "2023-01-01" "2023-01-01" []).map
        IntervalRec.consumption).sum = 96
    ∧ ¬ |((annual_to_intervals 95 "2023-01-01" "2023-01-01" []).map
          IntervalRec.consumption).sum - 95| ≤ 95 * (1 / 1000000) := by
  have hs : parseDate "2023-01-01" = some (2023, 1, 1) := by decide
  have hsum : ((annual_to_intervals 95 "2023-01-01" "2023-01-01" []).map
      IntervalRec.consumption).sum = 96 := by
    rw [annual_eq 95 _ _ [] 2023 1 1 2023 1 1 hs hs]
    have hdaily : (95 : ℚ) /
        ((((rataDie 2023 1 1 : ℤ) - (rataDie 2023 1 1 : ℤ) + 1) : ℤ) : ℚ) = 95 := by
      have h1 : ((rataDie 2023 1 1 : ℤ) - (rataDie 2023 1 1 : ℤ) + 1) = 1 := by ring
      rw [h1]
      norm_num
    rw [hdaily]
    unfold annualDays
    rw [show rataDie 2023 1 1 + 1 - rataDie 2023 1 1 = 1 from by omega]
    rw [annualAllIntervals_flatten 95 (rataDie 2023 1 1) 1]
    have hone : ((List.range 1).map
        (fun j => dayBuckets 95 (rataDie 2023 1 1 + j))).flatten
        = dayBuckets 95 (rataDie 2023 1 1) := by
      rw [show List.range 1 = [0] from rfl]
      simp
    rw [hone]
    have hval : dayBuckets 95 (rataDie 2023 1 1) =
        (List.range 96).map
          (fun i => ((rataDie 2023 1 1) * 86400 + 900 * i, (1 : ℚ))) := by
      unfold dayBuckets
      norm_num
    rw [hval, toOutput_pair_map_sum 96 _ 1 (by norm_num), roundTo4_one]
    norm_num
  refine ⟨hsum, ?_⟩
  rw [hsum]
  norm_num

/-! ### Claim C4 -/

/-- C4 (amended): when every candidate bucket of the computed period has its
date excluded by the travel ranges, the distributor returns zero buckets and
no failure is raised (it is a total function returning `[]`); the entry's
energy is simply dropped, not redistributed.  No `AllBucketsExcluded` report
is produced anywhere — the drop is silent. -/
theorem c4_full_exclusion_amended (s e : Nat) (tot : ℚ) (travel : List (Nat × Nat))
    (h : ∀ t ∈ bucketCandidates s e, is_in_travel_range (t / 86400) travel = true) :
    split_to_15min_flat s e tot travel = [] :=
  split_all_excluded s e tot travel h

/-- C4 witness: one fully-excluded day (day 0, travel range covering day 0)
produces zero buckets. -/
theorem c4_full_exclusion_amended_witness :
    (∀ t ∈ bucketCandidates 0 86399, is_in_travel_range (t / 86400) [(0, 0)] = true)
    ∧ split_to_15min_flat 0 86399 5 [(0, 0)] = [] :=
  ⟨by decide, c4_full_exclusion_amended 0 86399 5 [(0, 0)] (by decide)⟩

lemma entrySplit_jan2023_excluded :
    entrySplit 2023 none [(rataDie 2023 1 1, rataDie 2023 1 1 + 30)] 1 500 = [] := by
  unfold entrySplit monthlyPeriod
  dsimp only
  have h1 : dtSec ⟨2023, 1, 1, 0, 0, 0⟩ = rataDie 2023 1 1 * 86400 := by decide
  have h2 : dtSec ⟨2023, 1, daysInMonth 2023 1, 23, 59, 59⟩
      = (rataDie 2023 1 1 + 30) * 86400 + 86399 := by decide
  rw [h1, h2]
  apply split_all_excluded
  intro t ht
  have hb := bucketCandidates_mem_bounds _ _ t ht
  rw [day_floor900] at hb
  have hle : rataDie 2023 1 1 ≤ t / 86400 :=
    (Nat.le_div_iff_mul_le (by norm_num)).mpr hb.1
  have hge : t / 86400 ≤ rataDie 2023 1 1 + 30 := by
    have hd := Nat.div_le_div_right (c := 86400) hb.2
    rwa [show (rataDie 2023 1 1 + 30) * 86400 + 86399
        = 86399 + 86400 * (rataDie 2023 1 1 + 30) from by ring,
      Nat.add_mul_div_left _ _ (by norm_num : (0:ℕ) < 86400),
      show (86399 : ℕ) / 86400 = 0 from by norm_num, Nat.zero_add] at hd
  unfold is_in_travel_range
  simp only [List.any_cons, List.any_nil, Bool.or_false, Bool.and_eq_true,
    decide_eq_true_eq]
  exact ⟨hle, hge⟩

/-- C4 (counterexample to the claim as stated): nothing is "reported" or
"tracked" when an entry's whole period is excluded — the batch output with the
fully-excluded January entry is IDENTICAL to the output of the batch without
that entry, so the condition the claim calls `AllBucketsExcluded` is not
observable anywhere in the result; the energy is lost silently. -/
theorem c4_silent_drop_counterexample :
    monthly_to_intervals [⟨1, 500, some 2023⟩, ⟨2, 280, some 2023⟩] none
        [(rataDie 2023 1 1, rataDie 2023 1 1 + 30)] 2023
      = monthly_to_intervals [⟨2, 280, some 2023⟩] none
        [(rataDie 2023 1 1, rataDie 2023 1 1 + 30)] 2023 := by
  have hb1 : build_monthly [⟨1, 500, some 2023⟩, ⟨2, 280, some 2023⟩]
      = ([(1, 500), (2, 280)], some 2023) := rfl
  have hb2 : build_monthly [⟨2, 280, some 2023⟩] = ([(2, 280)], some 2023) := rfl
  rw [monthly_eq_toOutput _ _ _ _ (by simp) (by rw [hb1]; simp),
    monthly_eq_toOutput _ _ _ _ (by simp) (by rw [hb2]; simp), hb1, hb2]
  simp only [Option.getD_some]
  have hL : monthlyAllIntervals [(1, 500), (2, 280)] 2023 none
        [(rataDie 2023 1 1, rataDie 2023 1 1 + 30)]
      = mergeInto
          (mergeInto [] (entrySplit 2023 none
            [(rataDie 2023 1 1, rataDie 2023 1 1 + 30)] 1 500))
          (entrySplit 2023 none
            [(rataDie 2023 1 1, rataDie 2023 1 1 + 30)] 2 280) := by
    unfold monthlyAllIntervals
    rw [List.foldl_cons, List.foldl_cons, List.foldl_nil]
  have hR : monthlyAllIntervals [(2, 280)] 2023 none
        [(rataDie 2023 1 1, rataDie 2023 1 1 + 30)]
      = mergeInto [] (entrySplit 2023 none
          [(rataDie 2023 1 1, rataDie 2023 1 1 + 30)] 2 280) := by
    unfold monthlyAllIntervals
    rw [List.foldl_cons, List.foldl_nil]
  rw [hL, hR, entrySplit_jan2023_excluded]
  rfl

/-! ### Claim C5 -/

lemma rangeMap_keys_nodup (N base : Nat) (c : ℚ) :
    (((List.range N).map (fun i => (base + 900 * i, c))).map Prod.fst).Nodup := by
  rw [List.map_map]
  refine List.pairwise_map.mpr ?_
  refine (List.pairwise_lt_range N).imp ?_
  intro a b hab
  simp only [Function.comp_apply]
  omega

lemma rangeMap_key_bounds (N base : Nat) (c : ℚ) (kv : Nat × ℚ)
    (h : kv ∈ (List.range N).map (fun i => (base + 900 * i, c))) :
    base ≤ kv.1 ∧ kv.1 < base + 900 * N := by
  rcases List.mem_map.mp h with ⟨i, hi, rfl⟩
  have := List.mem_range.mp hi
  omega

lemma entrySplit_jan2024 :
    entrySplit 2024 none [] 1 (-5) =
      (List.range ((30 + 1) * 96)).map
        (fun i => (rataDie 2024 1 1 * 86400 + 900 * i,
          (-5 : ℚ) / ((((30 + 1) * 96 : ℕ)) : ℚ))) := by
  unfold entrySplit monthlyPeriod
  dsimp only
  rw [show dtSec ⟨2024, 1, 1, 0, 0, 0⟩ = rataDie 2024 1 1 * 86400 from by decide,
    show dtSec ⟨2024, 1, daysInMonth 2024 1, 23, 59, 59⟩
      = (rataDie 2024 1 1 + 30) * 86400 + 86399 from by decide]
  exact split_full_range (rataDie 2024 1 1) 30 (-5)

lemma entrySplit_feb2024 :
    entrySplit 2024 none [] 2 280 =
      (List.range ((28 + 1) * 96)).map
        (fun i => ((rataDie 2024 1 1 + 31) * 86400 + 900 * i,
          (280 : ℚ) / ((((28 + 1) * 96 : ℕ)) : ℚ))) := by
  unfold entrySplit monthlyPeriod
  dsimp only
  rw [show dtSec ⟨2024, 2, 1, 0, 0, 0⟩ = (rataDie 2024 1 1 + 31) * 86400 from by decide,
    show dtSec ⟨2024, 2, daysInMonth 2024 2, 23, 59, 59⟩
      = ((rataDie 2024 1 1 + 31) + 28) * 86400 + 86399 from by decide]
  exact split_full_range (rataDie 2024 1 1 + 31) 28 280

lemma entrySplit_feb2023 :
    entrySplit 2023 none [] 2 280 =
      (List.range ((27 + 1) * 96)).map
        (fun i => (rataDie 2023 2 1 * 86400 + 900 * i,
          (280 : ℚ) / ((((27 + 1) * 96 : ℕ)) : ℚ))) := by
  unfold entrySplit monthlyPeriod
  dsimp only
  rw [show dtSec ⟨2023, 2, 1, 0, 0, 0⟩ = rataDie 2023 2 1 * 86400 from by decide,
    show dtSec ⟨2023, 2, daysInMonth 2023 2, 23, 59, 59⟩
      = (rataDie 2023 2 1 + 27) * 86400 + 86399 from by decide]
  exact split_full_range (rataDie 2023 2 1) 27 280

lemma c5_build1 : build_monthly [⟨1, -5, some 2024⟩, ⟨2, 280, some 2023⟩]
    = ([(1, -5), (2, 280)], some 2024) := rfl

lemma c5_build2 : build_monthly [⟨2, 280, some 2023⟩] = ([(2, 280)], some 2023) := rfl

lemma c5_mergeL : monthlyAllIntervals [(1, -5), (2, 280)] 2024 none []
    = ((List.range ((30 + 1) * 96)).map
        (fun i => (rataDie 2024 1 1 * 86400 + 900 * i,
          (-5 : ℚ) / ((((30 + 1) * 96 : ℕ)) : ℚ))))
      ++ ((List.range ((28 + 1) * 96)).map
        (fun i => ((rataDie 2024 1 1 + 31) * 86400 + 900 * i,
          (280 : ℚ) / ((((28 + 1) * 96 : ℕ)) : ℚ)))) := by
  have hstep : monthlyAllIntervals [(1, -5), (2, 280)] 2024 none []
      = mergeInto (mergeInto [] (entrySplit 2024 none [] 1 (-5)))
          (entrySplit 2024 none [] 2 280) := by
    unfold monthlyAllIntervals
    rw [List.foldl_cons, List.foldl_cons, List.foldl_nil]
  rw [hstep, entrySplit_jan2024, entrySplit_feb2024,
    mergeInto_nil_left _ (rangeMap_keys_nodup _ _ _)]
  refine mergeInto_append _ _ (rangeMap_keys_nodup _ _ _) ?_
  intro kv hkv kv2 hkv2
  have hub := (rangeMap_key_bounds _ _ _ _ hkv2).2
  have hlb := (rangeMap_key_bounds _ _ _ _ hkv).1
  omega

lemma c5_mergeR : monthlyAllIntervals [(2, 280)] 2023 none []
    = (List.range ((27 + 1) * 96)).map
        (fun i => (rataDie 2023 2 1 * 86400 + 900 * i,
          (280 : ℚ) / ((((27 + 1) * 96 : ℕ)) : ℚ))) := by
  have hstep : monthlyAllIntervals [(2, 280)] 2023 none []
      = mergeInto [] (entrySplit 2023 none [] 2 280) := by
    unfold monthlyAllIntervals
    rw [List.foldl_cons, List.foldl_nil]
  rw [hstep, entrySplit_feb2023, mergeInto_nil_left _ (rangeMap_keys_nodup _ _ _)]

lemma c5_lenL : (monthly_to_intervals [⟨1, -5, some 2024⟩, ⟨2, 280, some 2023⟩]
    none [] 0).length = 2784 := by
  rw [monthly_eq_toOutput _ _ _ _ (by simp) (by rw [c5_build1]; simp), c5_build1]
  simp only [Option.getD_some]
  rw [c5_mergeL, toOutput_length, List.countP_append,
    countP_pair_map_nonpos _ _ _ (by norm_num),
    countP_pair_map_pos _ _ _ (by norm_num)]

lemma c5_lenR : (monthly_to_intervals [⟨2, 280, some 2023⟩] none [] 0).length = 2688 := by
  rw [monthly_eq_toOutput _ _ _ _ (by simp) (by rw [c5_build2]; simp), c5_build2]
  simp only [Option.getD_some]
  rw [c5_mergeR, toOutput_length, countP_pair_map_pos _ _ _ (by norm_num)]

/-- C5 (counterexample): a negative-total row is NOT rejected or skipped — no
`InvalidTotal` validation exists.  With rows `{month 1, total -5, year 2024}`
and `{month 2, total 280, year 2023}` (calendar months, no travel), the
negative row is processed as a valid entry: it supplies the batch year 2024,
so the batch emits February 2024's 2784 buckets; had the negative entry been
skipped (as the claim asserts) the output would be February 2023's 2688
buckets.  The two outputs differ. -/
theorem c5_negative_total_counterexample :
    (monthly_to_intervals [⟨1, -5, some 2024⟩, ⟨2, 280, some 2023⟩] none [] 0).length = 2784
    ∧ (monthly_to_intervals [⟨2, 280, some 2023⟩] none [] 0).length = 2688
    ∧ monthly_to_intervals [⟨1, -5, some 2024⟩, ⟨2, 280, some 2023⟩] none [] 0
        ≠ monthly_to_intervals [⟨2, 280, some 2023⟩] none [] 0 := by
  refine ⟨c5_lenL, c5_lenR, ?_⟩
  intro heq
  have h1 := c5_lenL
  rw [heq, c5_lenR] at h1
  exact absurd h1 (by norm_num)

/-- C5 (amended): the only per-row validation in the monthly batch is the
month-range test: a row whose month is outside 1..12 is skipped and the batch
continues with the remaining rows unchanged.  Totals are never validated —
negative (or any) totals are accepted and distributed, and no list of skipped
entries is returned. -/
theorem c5_invalid_month_skip_amended (rows1 rows2 : List Row) (r : Row)
    (c : Option Nat) (travel : List (Nat × Nat)) (n : Nat)
    (h : ¬(1 ≤ r.month ∧ r.month ≤ 12)) :
    monthly_to_intervals (rows1 ++ r :: rows2) c travel n
      = monthly_to_intervals (rows1 ++ rows2) c travel n :=
  monthly_to_intervals_congr _ _ c travel n (build_monthly_skip rows1 rows2 r h)

/-- C5 witness: a month-0 row is skipped; the batch output equals that of the
batch without it. -/
theorem c5_invalid_month_skip_amended_witness :
    ¬(1 ≤ (0 : Nat) ∧ (0 : Nat) ≤ 12)
    ∧ monthly_to_intervals ([] ++ (⟨0, 100, none⟩ : Row) :: [⟨2, 280, some 2023⟩])
        none [] 0
      = monthly_to_intervals ([] ++ [(⟨2, 280, some 2023⟩ : Row)]) none [] 0 :=
  ⟨by decide,
    c5_invalid_month_skip_amended [] [⟨2, 280, some 2023⟩] ⟨0, 100, none⟩
      none [] 0 (by decide)⟩

/-! ### Claim C3 -/

lemma annual2023_flatten (kwh : ℚ) :
    annual_to_intervals kwh "2023-01-01" "2023-12-31" [] =
      toOutput (((List.range 365).map
        (fun j => dayBuckets (kwh / ((365 : ℤ) : ℚ)) (rataDie 2023 1 1 + j))).flatten) := by
  rw [annual_eq kwh _ _ [] 2023 1 1 2023 12 31 (by decide) (by decide)]
  have hdiff : ((rataDie 2023 12 31 : ℤ) - (rataDie 2023 1 1 : ℤ) + 1) = 365 := by
    rw [show rataDie 2023 12 31 = rataDie 2023 1 1 + 364 from by decide]
    push_cast
    ring
  rw [hdiff]
  unfold annualDays
  rw [show rataDie 2023 12 31 + 1 - rataDie 2023 1 1 = 365 from by
    rw [show rataDie 2023 12 31 = rataDie 2023 1 1 + 364 from by decide]
    omega]
  rw [annualAllIntervals_flatten]

/-- C3 (counterexample): the claim as stated fails for the legal annual entry
with `totalEnergyKwh = 0` over 2023: all 35040 generated buckets carry zero
energy and the output stage drops every zero bucket, so the conversion
produces 0 buckets, not 35040. -/
theorem c3_zero_total_counterexample :
    annual_to_intervals 0 "2023-01-01" "2023-12-31" [] = [] := by
  rw [annual2023_flatten]
  have hlen : (toOutput (((List.range 365).map
      (fun j => dayBuckets ((0 : ℚ) / ((365 : ℤ) : ℚ)) (rataDie 2023 1 1 + j))).flatten)).length
      = 0 := by
    rw [toOutput_length, List.countP_flatten, List.map_map]
    have hmap : (List.range 365).map
        ((List.countP (fun kv => decide (0 < kv.2))) ∘
          (fun j => dayBuckets ((0 : ℚ) / ((365 : ℤ) : ℚ)) (rataDie 2023 1 1 + j)))
        = (List.range 365).map (fun _ => 0) := by
      refine List.map_congr_left ?_
      intro j _
      simp only [Function.comp_apply]
      unfold dayBuckets
      exact countP_pair_map_nonpos 96 _ _ (by norm_num)
    rw [hmap, map_const_list, List.sum_replicate]
    simp
  exact List.length_eq_zero.mp hlen

/-- C3 (amended): an annual entry with POSITIVE total spanning the full
non-leap year 2023, with no travel exclusions, produces exactly
`365 × 96 = 35040` output buckets, each minute-aligned to a 15-minute
boundary inside its day's `[00:00, 23:45]` window. -/
theorem c3_annual_bucket_count_amended (kwh : ℚ) (h : 0 < kwh) :
    (annual_to_intervals kwh "2023-01-01" "2023-12-31" []).length = 35040
    ∧ ∀ r ∈ annual_to_intervals kwh "2023-01-01" "2023-12-31" [],
        r.timestamp % 900 = 0 ∧ r.timestamp % 86400 ≤ 85500 := by
  rw [annual2023_flatten]
  have hpos : 0 < kwh / ((365 : ℤ) : ℚ) / 95 := by
    apply div_pos
    · apply div_pos h
      norm_num
    · norm_num
  constructor
  · rw [toOutput_length, List.countP_flatten, List.map_map]
    have hmap : (List.range 365).map
        ((List.countP (fun kv => decide (0 < kv.2))) ∘
          (fun j => dayBuckets (kwh / ((365 : ℤ) : ℚ)) (rataDie 2023 1 1 + j)))
        = (List.range 365).map (fun _ => 96) := by
      refine List.map_congr_left ?_
      intro j _
      simp only [Function.comp_apply]
      unfold dayBuckets
      exact countP_pair_map_pos 96 _ _ hpos
    rw [hmap, map_const_list, List.sum_replicate, List.length_range]
    norm_num
  · intro r hr
    rcases mem_toOutput _ _ hr with ⟨kv, hkv, hposkv, rfl⟩
    rcases List.mem_flatten.mp hkv with ⟨l, hl, hkvl⟩
    rcases List.mem_map.mp hl with ⟨j, hj, rfl⟩
    unfold dayBuckets at hkvl
    rcases List.mem_map.mp hkvl with ⟨i, hi, rfl⟩
    have hi2 := List.mem_range.mp hi
    constructor
    · show ((rataDie 2023 1 1 + j) * 86400 + 900 * i) % 900 = 0
      rw [show (rataDie 2023 1 1 + j) * 86400 + 900 * i
          = 900 * ((rataDie 2023 1 1 + j) * 96 + i) from by ring]
      exact Nat.mul_mod_right 900 _
    · show ((rataDie 2023 1 1 + j) * 86400 + 900 * i) % 86400 ≤ 85500
      rw [show (rataDie 2023 1 1 + j) * 86400 + 900 * i
          = 86400 * (rataDie 2023 1 1 + j) + 900 * i from by ring,
        Nat.mul_add_mod]
      have hlt : 900 * i % 86400 = 900 * i := Nat.mod_eq_of_lt (by omega)
      omega

/-- C3 witness: 8760 kWh over 2023 yields exactly 35040 buckets. -/
theorem c3_annual_bucket_count_amended_witness :
    (0 : ℚ) < 8760
    ∧ (annual_to_intervals 8760 "2023-01-01" "2023-12-31" []).length = 35040 :=
  ⟨by norm_num, (c3_annual_bucket_count_amended 8760 (by norm_num)).1⟩
